import Mathlib

/-!
Shallow embedding of tools/docker_quickstart.py.

The script shells out to external processes (git, docker compose) and checks
exit codes.  We model the outside world as an oracle assigning to every
command invocation either an exit code or a launch failure (the executable
was not found).  Each embedded procedure returns the list of commands it
invoked, in order, together with an Except value standing for normal return
versus a raised exception.  Filesystem effects of external commands are
opaque to the script (it only reads directory existence before running
them), so directory existence is modeled as a snapshot list of paths, and
paths as lists of components.
-/

namespace DockerQuickstart

/-- A filesystem path, as a list of components. -/
abbrev Path := List String

/-- Rendering of a path as a string, used where the script passes
str(destination) as a command argument. -/
def pathStr (p : Path) : String := String.intercalate "/" p

/-- A command invocation: argument list plus optional working directory
(the cwd argument of subprocess.run). -/
structure Cmd where
  args : List String
  cwd : Option Path
deriving DecidableEq, Repr

/-- What the outside world does with one command invocation: the process
ran and exited with a code, or launching it failed because the executable
was not found (the string is the exception text, which names the
executable). -/
inductive CmdResult where
  | exited (code : Nat)
  | notFound (msg : String)
deriving DecidableEq, Repr

/-- The environment: a deterministic oracle for command invocations. -/
abbrev World := Cmd → CmdResult

/-- The exceptions the script can see escape a command invocation:
CommandError (raised by run_command, line 42) and the builtin
FileNotFoundError (raised by subprocess.run itself). Each carries its
message text. -/
inductive Err where
  | commandError (msg : String)
  | fileNotFound (msg : String)
deriving DecidableEq, Repr

/-- Outcome of one command invocation, as run_command observes it
(lines 39-42): exit code 0 is success; a nonzero code raises CommandError
with the joined command text and the code; a launch failure raises
FileNotFoundError. -/
def runOne (w : World) (c : Cmd) : Except Err Unit :=
  match w c with
  | CmdResult.exited 0 => Except.ok ()
  | CmdResult.exited code =>
      Except.error (Err.commandError
        ("Command failed (" ++ toString code ++ "): " ++ String.intercalate " " c.args))
  | CmdResult.notFound msg => Except.error (Err.fileNotFound msg)

/-- run_command (lines 36-42): invoke the command (recorded in the trace)
and return success or the raised exception. -/
def run_command (w : World) (cmd : List String) (cwd : Option Path) :
    List Cmd × Except Err Unit :=
  ([⟨cmd, cwd⟩], runOne w ⟨cmd, cwd⟩)

/-- Sequencing of two traced computations: the second runs only when the
first returned normally; an exception propagates (Python control flow). -/
def andThen (a b : List Cmd × Except Err Unit) : List Cmd × Except Err Unit :=
  match a.snd with
  | Except.ok _ => (a.fst ++ b.fst, b.snd)
  | Except.error e => (a.fst, Except.error e)

/-- ensure_repo (lines 45-55): if the destination exists, fetch all remote
refs, check out the branch, fast-forward pull, all with the destination as
working directory; otherwise clone the url at the branch into the
destination. -/
def ensure_repo (w : World) (fs : List Path) (url : String) (destination : Path)
    (branch : String) : List Cmd × Except Err Unit :=
  if destination ∈ fs then
    andThen (run_command w ["git", "fetch", "--all"] (some destination))
      (andThen (run_command w ["git", "checkout", branch] (some destination))
        (run_command w ["git", "pull", "--ff-only"] (some destination)))
  else
    run_command w ["git", "clone", "--branch", branch, url, pathStr destination] none

/-- build_and_run (lines 95-121): compose build with the two build
arguments followed by the service names, in the packaging directory; then,
when start_after_build is set, compose up in detached mode. -/
def build_and_run (w : World) (packaging_dir : Path) (compose_services : List String)
    (branch : String) (repo_url : String) (start_after_build : Bool) :
    List Cmd × Except Err Unit :=
  let compose_cmd :=
    ["docker", "compose", "build",
     "--build-arg", "COMMITTISH=" ++ branch,
     "--build-arg", "GIT_URL=" ++ repo_url] ++ compose_services
  andThen (run_command w compose_cmd (some packaging_dir))
    (if start_after_build then
      run_command w ["docker", "compose", "up", "-d"] (some packaging_dir)
    else ([], Except.ok ()))

/-- Errors pathlib mkdir can raise in the modeled situations. -/
inductive MkdirError where
  | fileExists
  | fileNotFound
deriving DecidableEq, Repr

/-- Modelled from the documented behaviour of the standard library
Path.mkdir: an existing target is an error unless exist_ok is set; with
parents set, every missing ancestor directory is created along with the
target; without parents, a missing parent is an error. -/
def pathlib_mkdir (fs : List Path) (p : Path) (parents exist_ok : Bool) :
    Except MkdirError (List Path) :=
  if p ∈ fs then
    if exist_ok then Except.ok fs else Except.error MkdirError.fileExists
  else if parents then
    Except.ok (fs ++ p.inits.filter (fun q => !q.isEmpty))
  else if p.dropLast ∈ fs ∨ p.dropLast = [] then
    Except.ok (fs ++ [p])
  else
    Except.error MkdirError.fileNotFound

/-- main (lines 124-152): create the workspace directory (parents, exist
ok), then inside the try block sync the packaging repository at branch
"main", sync the fork at the user branch, and build and optionally start;
a CommandError is printed to stderr and yields exit code 1, a
FileNotFoundError is reported with the install hint and yields exit code
1; otherwise exit code 0.  The result is (command trace, stderr lines,
exit code); the workspace argument stands for the already resolved
workspace path. -/
def main (w : World) (fs : List Path) (repo_url : String) (branch : String)
    (workspace : Path) (packaging_url : String) (compose_services : List String)
    (no_start : Bool) : List Cmd × List String × Nat :=
  match pathlib_mkdir fs workspace true true with
  | Except.error _ => ([], [], 1)
  | Except.ok fs1 =>
    let packaging_dir := workspace ++ ["netdisco-docker"]
    let fork_dir := workspace ++ ["netdisco"]
    let r :=
      andThen (ensure_repo w fs1 packaging_url packaging_dir "main")
        (andThen (ensure_repo w fs1 repo_url fork_dir branch)
          (build_and_run w packaging_dir compose_services branch repo_url (!no_start)))
    match r.snd with
    | Except.ok _ => (r.fst, [], 0)
    | Except.error (Err.commandError msg) => (r.fst, [msg], 1)
    | Except.error (Err.fileNotFound msg) =>
        (r.fst, ["Required executable not found: " ++ msg ++ ". Please install git and docker."], 1)

/-- Modelled from the documented behaviour of the standard library
argparse with nargs set to star (parse_args, lines 81-86): the
compose-services option consumes every following token up to the next
option-like token, possibly none; absent the option, the default list from
the source applies. -/
def takeStarArgs : List String → List String
  | [] => []
  | a :: rest => if a.startsWith "-" then [] else a :: takeStarArgs rest

/-- Modelled from the documented behaviour of the standard library
argparse: the value of the compose-services option for a given argument
vector. -/
def parse_compose_services : List String → List String
  | [] => ["netdisco-backend", "netdisco-web"]
  | a :: rest =>
      if a = "--compose-services" then takeStarArgs rest
      else parse_compose_services rest

/-- Generic sequential executor for a planned list of commands: runs them in
order, records each attempted command, and stops at (and includes) the first
failing one.  Used to relate the procedures above to their planned traces. -/
def execCmds (w : World) : List Cmd → List Cmd × Except Err Unit
  | [] => ([], Except.ok ())
  | c :: cs =>
    match runOne w c with
    | Except.ok _ => ((c :: (execCmds w cs).fst), (execCmds w cs).snd)
    | Except.error e => ([c], Except.error e)

/-- The commands ensure_repo plans for a given existence state. -/
def syncTrace (fs : List Path) (url : String) (destination : Path) (branch : String) :
    List Cmd :=
  if destination ∈ fs then
    [⟨["git", "fetch", "--all"], some destination⟩,
     ⟨["git", "checkout", branch], some destination⟩,
     ⟨["git", "pull", "--ff-only"], some destination⟩]
  else
    [⟨["git", "clone", "--branch", branch, url, pathStr destination], none⟩]

/-- The commands build_and_run plans. -/
def buildTrace (packaging_dir : Path) (compose_services : List String)
    (branch : String) (repo_url : String) (start_after_build : Bool) : List Cmd :=
  ⟨["docker", "compose", "build",
    "--build-arg", "COMMITTISH=" ++ branch,
    "--build-arg", "GIT_URL=" ++ repo_url] ++ compose_services, some packaging_dir⟩ ::
  (if start_after_build then [⟨["docker", "compose", "up", "-d"], some packaging_dir⟩] else [])

/-- The filesystem after the workspace mkdir call of main. -/
def fsAfter (fs : List Path) (p : Path) : List Path :=
  if p ∈ fs then fs else fs ++ p.inits.filter (fun q => !q.isEmpty)

/-- The full plan of external commands for one run of main. -/
def mainTrace (fs : List Path) (repo_url : String) (branch : String) (workspace : Path)
    (packaging_url : String) (compose_services : List String) (no_start : Bool) :
    List Cmd :=
  syncTrace (fsAfter fs workspace) packaging_url (workspace ++ ["netdisco-docker"]) "main" ++
  (syncTrace (fsAfter fs workspace) repo_url (workspace ++ ["netdisco"]) branch ++
   buildTrace (workspace ++ ["netdisco-docker"]) compose_services branch repo_url (!no_start))

/-- A world where git clone fails with exit code 1 and everything else
succeeds. -/
def wGitCloneFails : World := fun c =>
  if c.args.take 2 = ["git", "clone"] then CmdResult.exited 1 else CmdResult.exited 0

/-- A world where no executable can be launched. -/
def wNoExecutable : World := fun _ => CmdResult.notFound "git"

/-- Stderr output of main for a given outcome of the command chain. -/
def stderrOf : Except Err Unit → List String
  | Except.ok _ => []
  | Except.error (Err.commandError msg) => [msg]
  | Except.error (Err.fileNotFound msg) =>
      ["Required executable not found: " ++ msg ++ ". Please install git and docker."]

/-- Exit code of main for a given outcome of the command chain. -/
def codeOf : Except Err Unit → Nat
  | Except.ok _ => 0
  | Except.error _ => 1

lemma runOne_ok_iff (w : World) (c : Cmd) :
    runOne w c = Except.ok () ↔ w c = CmdResult.exited 0 := by
  unfold runOne
  cases h : w c with
  | exited code =>
    cases code with
    | zero => simp
    | succ m => simp
  | notFound msg => simp

lemma runOne_err_of_exit (w : World) (c : Cmd) (n : Nat) (hn : n ≠ 0)
    (hw : w c = CmdResult.exited n) :
    runOne w c = Except.error (Err.commandError
      ("Command failed (" ++ toString n ++ "): " ++ String.intercalate " " c.args)) := by
  unfold runOne
  rw [hw]
  cases n with
  | zero => exact absurd rfl hn
  | succ m => rfl

lemma runOne_err_of_notFound (w : World) (c : Cmd) (msg : String)
    (hw : w c = CmdResult.notFound msg) :
    runOne w c = Except.error (Err.fileNotFound msg) := by
  unfold runOne
  rw [hw]

lemma execCmds_all_ok (w : World) (l : List Cmd)
    (h : ∀ c ∈ l, runOne w c = Except.ok ()) :
    execCmds w l = (l, Except.ok ()) := by
  induction l with
  | nil => rfl
  | cons c cs ih =>
    have hc : runOne w c = Except.ok () := h c (List.mem_cons_self c cs)
    have ihs := ih (fun d hd => h d (List.mem_cons_of_mem c hd))
    simp [execCmds, hc, ihs]

lemma execCmds_fst_initial (w : World) (l : List Cmd) :
    (execCmds w l).fst <+: l := by
  induction l with
  | nil => simp [execCmds]
  | cons c cs ih =>
    cases hr : runOne w c with
    | ok r =>
      cases r
      simpa [execCmds, hr, List.cons_prefix_cons] using ih
    | error e =>
      simp [execCmds, hr, List.cons_prefix_cons]

lemma execCmds_first_failure (w : World) (l : List Cmd) (c : Cmd) (e : Err)
    (hc : c ∈ (execCmds w l).fst) (he : runOne w c = Except.error e) :
    (execCmds w l).snd = Except.error e ∧
    ∃ pre, (execCmds w l).fst = pre ++ [c] ∧ ∀ d ∈ pre, runOne w d = Except.ok () := by
  induction l with
  | nil => simp [execCmds] at hc
  | cons a cs ih =>
    cases hr : runOne w a with
    | ok r =>
      cases r
      rw [show execCmds w (a :: cs) =
          ((a :: (execCmds w cs).fst), (execCmds w cs).snd) from by simp [execCmds, hr]] at hc ⊢
      rcases List.mem_cons.mp hc with hca | hcs
      · subst hca
        rw [hr] at he
        exact absurd he (by simp)
      · obtain ⟨hsnd, pre, hpre, hok⟩ := ih hcs
        refine ⟨hsnd, a :: pre, by simp [hpre], ?_⟩
        intro d hd
        rcases List.mem_cons.mp hd with hda | hdp
        · subst hda; exact hr
        · exact hok d hdp
    | error e2 =>
      rw [show execCmds w (a :: cs) = ([a], Except.error e2) from by simp [execCmds, hr]] at hc ⊢
      have hca : c = a := by simpa using hc
      subst hca
      rw [hr] at he
      refine ⟨he.symm ▸ rfl, [], by simp, by simp⟩

lemma execCmds_append (w : World) (l1 l2 : List Cmd) :
    execCmds w (l1 ++ l2) = andThen (execCmds w l1) (execCmds w l2) := by
  induction l1 with
  | nil => simp [execCmds, andThen]
  | cons a cs ih =>
    cases hr : runOne w a with
    | ok r =>
      cases r
      cases hs : (execCmds w cs).snd with
      | ok u =>
        cases u
        simp [execCmds, andThen, hr, ih, hs]
      | error e =>
        simp [execCmds, andThen, hr, ih, hs]
    | error e =>
      simp [execCmds, andThen, hr]

lemma ensure_repo_eq (w : World) (fs : List Path) (url : String) (destination : Path)
    (branch : String) :
    ensure_repo w fs url destination branch =
      execCmds w (syncTrace fs url destination branch) := by
  by_cases h : destination ∈ fs
  · cases h1 : runOne w ⟨["git", "fetch", "--all"], some destination⟩ <;>
    cases h2 : runOne w ⟨["git", "checkout", branch], some destination⟩ <;>
    cases h3 : runOne w ⟨["git", "pull", "--ff-only"], some destination⟩ <;>
    simp [ensure_repo, syncTrace, h, run_command, andThen, execCmds, h1, h2, h3]
  · cases h1 : runOne w ⟨["git", "clone", "--branch", branch, url, pathStr destination], none⟩ <;>
    simp [ensure_repo, syncTrace, h, run_command, andThen, execCmds, h1]

lemma build_and_run_eq (w : World) (packaging_dir : Path) (compose_services : List String)
    (branch : String) (repo_url : String) (start_after_build : Bool) :
    build_and_run w packaging_dir compose_services branch repo_url start_after_build =
      execCmds w (buildTrace packaging_dir compose_services branch repo_url start_after_build) := by
  cases hs : start_after_build <;>
  · cases h1 : runOne w ⟨["docker", "compose", "build",
      "--build-arg", "COMMITTISH=" ++ branch,
      "--build-arg", "GIT_URL=" ++ repo_url] ++ compose_services, some packaging_dir⟩ <;>
    cases h2 : runOne w ⟨["docker", "compose", "up", "-d"], some packaging_dir⟩ <;>
    simp [build_and_run, buildTrace, run_command, andThen, execCmds, h1, h2]

lemma mkdir_tt (fs : List Path) (p : Path) :
    pathlib_mkdir fs p true true = Except.ok (fsAfter fs p) := by
  unfold pathlib_mkdir fsAfter
  by_cases h : p ∈ fs <;> simp [h]

lemma main_eq (w : World) (fs : List Path) (repo_url : String) (branch : String)
    (workspace : Path) (packaging_url : String) (compose_services : List String)
    (no_start : Bool) :
    main w fs repo_url branch workspace packaging_url compose_services no_start =
      ((execCmds w (mainTrace fs repo_url branch workspace packaging_url compose_services no_start)).fst,
       stderrOf (execCmds w (mainTrace fs repo_url branch workspace packaging_url compose_services no_start)).snd,
       codeOf (execCmds w (mainTrace fs repo_url branch workspace packaging_url compose_services no_start)).snd) := by
  unfold main mainTrace
  rw [mkdir_tt]
  dsimp only
  rw [ensure_repo_eq, ensure_repo_eq, build_and_run_eq, ← execCmds_append, ← execCmds_append]
  cases hs : (execCmds w
      (syncTrace (fsAfter fs workspace) packaging_url (workspace ++ ["netdisco-docker"]) "main" ++
        (syncTrace (fsAfter fs workspace) repo_url (workspace ++ ["netdisco"]) branch ++
          buildTrace (workspace ++ ["netdisco-docker"]) compose_services branch repo_url
            (!no_start)))).snd with
  | ok u => cases u; simp [stderrOf, codeOf, hs]
  | error e => cases e <;> simp [stderrOf, codeOf, hs]

lemma execCmds_ok_fst (w : World) (l : List Cmd)
    (h : (execCmds w l).snd = Except.ok ()) : (execCmds w l).fst = l := by
  induction l with
  | nil => rfl
  | cons c cs ih =>
    cases hr : runOne w c with
    | ok r =>
      cases r
      rw [show execCmds w (c :: cs) =
          ((c :: (execCmds w cs).fst), (execCmds w cs).snd) from by simp [execCmds, hr]] at h ⊢
      simpa using ih h
    | error e =>
      rw [show execCmds w (c :: cs) = ([c], Except.error e) from by simp [execCmds, hr]] at h
      simp at h

lemma syncTrace_git_head (fs : List Path) (url : String) (destination : Path)
    (branch : String) (c : Cmd) (hc : c ∈ syncTrace fs url destination branch) :
    c.args.head? = some "git" := by
  unfold syncTrace at hc
  split at hc <;> simp at hc
  · rcases hc with rfl | rfl | rfl <;> rfl
  · subst hc; rfl

lemma docker_notMem_syncTrace (fs : List Path) (url : String) (destination : Path)
    (branch : String) (c : Cmd) (hd : c.args.head? = some "docker") :
    c ∉ syncTrace fs url destination branch := by
  intro hc
  rw [syncTrace_git_head fs url destination branch c hc] at hd
  simp at hd

lemma andThen_ok (a b : List Cmd × Except Err Unit) (h : a.snd = Except.ok ()) :
    andThen a b = (a.fst ++ b.fst, b.snd) := by
  simp [andThen, h]

lemma andThen_error (a b : List Cmd × Except Err Unit) (e : Err)
    (h : a.snd = Except.error e) : andThen a b = (a.fst, Except.error e) := by
  simp [andThen, h]

lemma execCmds_cons_ok (w : World) (c : Cmd) (l : List Cmd)
    (h : runOne w c = Except.ok ()) :
    execCmds w (c :: l) = (c :: (execCmds w l).fst, (execCmds w l).snd) := by
  simp [execCmds, h]

lemma execCmds_singleton_fst (w : World) (c : Cmd) :
    (execCmds w [c]).fst = [c] := by
  cases h : runOne w c <;> simp [execCmds, h]

lemma exec_build_up (w : World) (pre : List Cmd) (bc uc : Cmd)
    (hbcpre : bc ∉ pre) (hucpre : uc ∉ pre) (hucbc : uc ≠ bc)
    (hbc : runOne w bc = Except.ok ())
    (hmem : bc ∈ (execCmds w (pre ++ [bc, uc])).fst) :
    (execCmds w (pre ++ [bc, uc])).fst.count uc = 1 ∧
    (execCmds w (pre ++ [bc, uc])).fst.getLast? = some uc ∧
    bc ∈ (execCmds w (pre ++ [bc, uc])).fst.dropLast := by
  rw [execCmds_append] at hmem ⊢
  cases hpre : (execCmds w pre).snd with
  | error e =>
    rw [andThen_error _ _ e hpre] at hmem
    exact absurd ((execCmds_fst_initial w pre).subset hmem) hbcpre
  | ok u =>
    cases u
    rw [andThen_ok _ _ hpre]
    dsimp only
    rw [execCmds_ok_fst w pre hpre, execCmds_cons_ok w bc [uc] hbc]
    dsimp only
    rw [execCmds_singleton_fst]
    rw [show pre ++ bc :: [uc] = (pre ++ [bc]) ++ [uc] from by simp]
    have h0 : pre.count uc = 0 := List.count_eq_zero.mpr hucpre
    refine ⟨?_, ?_, ?_⟩
    · rw [List.count_append, List.count_append, h0, List.count_singleton,
        List.count_singleton]
      have hbcuc : (bc == uc) = false := by
        simp only [beq_eq_false_iff_ne]
        exact fun h => hucbc h.symm
      simp [hbcuc]
    · rw [List.getLast?_concat]
    · rw [List.dropLast_concat]
      simp

/-- Claim C1: for every destination path that already exists, ensure_repo
invokes the fetch of all remote refs, the checkout of the target branch,
and the fast-forward pull, in that order (exactly those three commands
when every command succeeds), all with the destination as working
directory, and never invokes a clone command. -/
theorem ensure_repo_existing_fetch_checkout_pull (w : World) (fs : List Path)
    (url : String) (destination : Path) (branch : String) (h : destination ∈ fs) :
    (ensure_repo w fs url destination branch).fst <+:
      [⟨["git", "fetch", "--all"], some destination⟩,
       ⟨["git", "checkout", branch], some destination⟩,
       ⟨["git", "pull", "--ff-only"], some destination⟩] ∧
    ((∀ c, w c = CmdResult.exited 0) →
      (ensure_repo w fs url destination branch).fst =
        [⟨["git", "fetch", "--all"], some destination⟩,
         ⟨["git", "checkout", branch], some destination⟩,
         ⟨["git", "pull", "--ff-only"], some destination⟩]) ∧
    ∀ c ∈ (ensure_repo w fs url destination branch).fst,
      c.cwd = some destination ∧ c.args.take 2 ≠ ["git", "clone"] := by
  have hsync : syncTrace fs url destination branch =
      [⟨["git", "fetch", "--all"], some destination⟩,
       ⟨["git", "checkout", branch], some destination⟩,
       ⟨["git", "pull", "--ff-only"], some destination⟩] := by
    simp [syncTrace, h]
  rw [ensure_repo_eq, hsync]
  refine ⟨execCmds_fst_initial w _, ?_, ?_⟩
  · intro hw
    rw [execCmds_all_ok w _ (fun c _ => (runOne_ok_iff w c).mpr (hw c))]
  · intro c hc
    have hmem := (execCmds_fst_initial w _).subset hc
    simp at hmem
    rcases hmem with rfl | rfl | rfl <;> exact ⟨rfl, by simp⟩

/-- Closed instance of claim C1, with an existing destination and a world
where every command succeeds. -/
theorem ensure_repo_existing_fetch_checkout_pull_witness :
    (ensure_repo (fun _ => CmdResult.exited 0) [["d"]] "u" ["d"] "b").fst =
      [⟨["git", "fetch", "--all"], some ["d"]⟩,
       ⟨["git", "checkout", "b"], some ["d"]⟩,
       ⟨["git", "pull", "--ff-only"], some ["d"]⟩] :=
  (ensure_repo_existing_fetch_checkout_pull (fun _ => CmdResult.exited 0)
    [["d"]] "u" ["d"] "b" (by simp)).2.1 (fun c => rfl)

/-- Claim C2: for every destination path that does not exist, ensure_repo
invokes exactly one command, the clone passing the branch via the branch
flag together with the url and the rendered destination, and never invokes
a fetch, checkout or pull command. -/
theorem ensure_repo_absent_clone_once (w : World) (fs : List Path)
    (url : String) (destination : Path) (branch : String) (h : destination ∉ fs) :
    (ensure_repo w fs url destination branch).fst =
      [⟨["git", "clone", "--branch", branch, url, pathStr destination], none⟩] ∧
    ∀ c ∈ (ensure_repo w fs url destination branch).fst,
      c.args.take 2 ≠ ["git", "fetch"] ∧ c.args.take 2 ≠ ["git", "checkout"] ∧
      c.args.take 2 ≠ ["git", "pull"] := by
  have hfst : (ensure_repo w fs url destination branch).fst =
      [⟨["git", "clone", "--branch", branch, url, pathStr destination], none⟩] := by
    simp [ensure_repo, h, run_command]
  refine ⟨hfst, ?_⟩
  intro c hc
  rw [hfst] at hc
  simp at hc
  subst hc
  exact ⟨by simp, by simp, by simp⟩

/-- Closed instance of claim C2, with an absent destination. -/
theorem ensure_repo_absent_clone_once_witness :
    (ensure_repo (fun _ => CmdResult.exited 0) [] "u" ["d"] "b").fst =
      [⟨["git", "clone", "--branch", "b", "u", pathStr ["d"]], none⟩] :=
  (ensure_repo_absent_clone_once (fun _ => CmdResult.exited 0) [] "u" ["d"] "b"
    (by simp)).1

/-- Claim C5: the compose build command invoked by build_and_run carries
exactly the two build argument pairs COMMITTISH set to the branch and
GIT_URL set to the repository url, taken verbatim, followed by the service
names, and runs in the packaging directory.  It is always the first
command invoked. -/
theorem build_args_committish_and_git_url (w : World) (packaging_dir : Path)
    (compose_services : List String) (branch : String) (repo_url : String)
    (start_after_build : Bool) :
    (build_and_run w packaging_dir compose_services branch repo_url start_after_build).fst.head? =
      some ⟨["docker", "compose", "build",
             "--build-arg", "COMMITTISH=" ++ branch,
             "--build-arg", "GIT_URL=" ++ repo_url] ++ compose_services,
            some packaging_dir⟩ := by
  simp only [build_and_run, run_command, andThen]
  split <;> simp

/-- Claim C6: run_command returns normally exactly when the process exits
with code 0, and for a nonzero exit code it raises CommandError carrying
the space-joined command text and that exit code. -/
theorem run_command_exit_code_contract (w : World) (args : List String)
    (cwd : Option Path) :
    ((run_command w args cwd).snd = Except.ok () ↔
      w ⟨args, cwd⟩ = CmdResult.exited 0) ∧
    ∀ n, n ≠ 0 → w ⟨args, cwd⟩ = CmdResult.exited n →
      (run_command w args cwd).snd = Except.error (Err.commandError
        ("Command failed (" ++ toString n ++ "): " ++ String.intercalate " " args)) := by
  constructor
  · simpa [run_command] using runOne_ok_iff w ⟨args, cwd⟩
  · intro n hn hw
    simpa [run_command] using runOne_err_of_exit w ⟨args, cwd⟩ n hn hw

/-- Closed instance of claim C6, with a world where the process exits with
code 2. -/
theorem run_command_exit_code_contract_witness :
    (run_command (fun _ => CmdResult.exited 2) ["git", "fetch"] none).snd =
      Except.error (Err.commandError
        ("Command failed (" ++ toString 2 ++ "): " ++
          String.intercalate " " ["git", "fetch"])) :=
  (run_command_exit_code_contract (fun _ => CmdResult.exited 2) ["git", "fetch"]
    none).2 2 (by decide) rfl

/-- Claim C10: in the compose build command the service names come after
the two build argument flag pairs, in the order given; and since the
argparse star option admits zero arguments, supplying the compose-services
option with no values yields an empty list, in which case the build
command carries no service names at all. -/
theorem compose_services_appended_possibly_empty (w : World) (packaging_dir : Path)
    (compose_services : List String) (branch : String) (repo_url : String)
    (start_after_build : Bool) :
    (build_and_run w packaging_dir compose_services branch repo_url start_after_build).fst.head? =
      some ⟨["docker", "compose", "build",
             "--build-arg", "COMMITTISH=" ++ branch,
             "--build-arg", "GIT_URL=" ++ repo_url] ++ compose_services,
            some packaging_dir⟩ ∧
    parse_compose_services ["--compose-services"] = [] ∧
    (build_and_run w packaging_dir (parse_compose_services ["--compose-services"])
        branch repo_url start_after_build).fst.head? =
      some ⟨["docker", "compose", "build",
             "--build-arg", "COMMITTISH=" ++ branch,
             "--build-arg", "GIT_URL=" ++ repo_url],
            some packaging_dir⟩ := by
  refine ⟨?_, rfl, ?_⟩
  · simp only [build_and_run, run_command, andThen]
    split <;> simp
  · simp only [build_and_run, run_command, andThen, parse_compose_services, takeStarArgs]
    split <;> simp

/-- Claim C3: when some command invoked during a run of main exits
nonzero, main returns exit code 1 and the failing command is the last one
invoked, every earlier one having exited 0 (fail-fast, nothing after the
failing command executes). -/
theorem main_failure_fail_fast (w : World) (fs : List Path) (repo_url : String)
    (branch : String) (workspace : Path) (packaging_url : String)
    (compose_services : List String) (no_start : Bool) (c : Cmd) (n : Nat)
    (hc : c ∈ (main w fs repo_url branch workspace packaging_url compose_services no_start).fst)
    (hn : n ≠ 0) (hw : w c = CmdResult.exited n) :
    (main w fs repo_url branch workspace packaging_url compose_services no_start).snd.snd = 1 ∧
    ∃ pre,
      (main w fs repo_url branch workspace packaging_url compose_services no_start).fst =
        pre ++ [c] ∧
      ∀ d ∈ pre, w d = CmdResult.exited 0 := by
  rw [main_eq] at hc ⊢
  dsimp only at hc ⊢
  have he := runOne_err_of_exit w c n hn hw
  obtain ⟨hsnd, pre, hpre, hok⟩ := execCmds_first_failure w _ c _ hc he
  exact ⟨by simp [hsnd, codeOf], pre, hpre, fun d hd => (runOne_ok_iff w d).mp (hok d hd)⟩

/-- Closed instance of claim C3: with an empty filesystem the first
command is the packaging clone, which exits 1, so main exits 1. -/
theorem main_failure_fail_fast_witness :
    (main wGitCloneFails [] "u" "b" ["w"] "p" ["s"] false).snd.snd = 1 :=
  (main_failure_fail_fast wGitCloneFails [] "u" "b" ["w"] "p" ["s"] false
    ⟨["git", "clone", "--branch", "main", "p", pathStr ["w", "netdisco-docker"]], none⟩ 1
    (by decide) (by decide) (by decide)).1

/-- Claim C7: when launching some command invoked during a run of main
fails because the executable is not found, main prints the missing
executable (the exception text naming it) together with the install hint
on stderr and returns exit code 1. -/
theorem main_missing_executable_report (w : World) (fs : List Path) (repo_url : String)
    (branch : String) (workspace : Path) (packaging_url : String)
    (compose_services : List String) (no_start : Bool) (c : Cmd) (msg : String)
    (hc : c ∈ (main w fs repo_url branch workspace packaging_url compose_services no_start).fst)
    (hw : w c = CmdResult.notFound msg) :
    (main w fs repo_url branch workspace packaging_url compose_services no_start).snd.fst =
      ["Required executable not found: " ++ msg ++ ". Please install git and docker."] ∧
    (main w fs repo_url branch workspace packaging_url compose_services no_start).snd.snd = 1 := by
  rw [main_eq] at hc ⊢
  dsimp only at hc ⊢
  have he := runOne_err_of_notFound w c msg hw
  obtain ⟨hsnd, -⟩ := execCmds_first_failure w _ c _ hc he
  exact ⟨by simp [hsnd, stderrOf], by simp [hsnd, codeOf]⟩

/-- Closed instance of claim C7: the first command of the run cannot be
launched and main reports it on stderr. -/
theorem main_missing_executable_report_witness :
    (main wNoExecutable [] "u" "b" ["w"] "p" ["s"] false).snd.fst =
      ["Required executable not found: " ++ "git" ++ ". Please install git and docker."] :=
  (main_missing_executable_report wNoExecutable [] "u" "b" ["w"] "p" ["s"] false
    ⟨["git", "clone", "--branch", "main", "p", pathStr ["w", "netdisco-docker"]], none⟩ "git"
    (by decide) rfl).1

/-- Claim C8: the workspace mkdir call of main (parents and exist_ok both
set) creates the directory together with every missing ancestor when it is
absent, and returns without error leaving the filesystem unchanged when it
already exists. -/
theorem workspace_mkdir_parents_exist_ok (fs : List Path) (p : Path) :
    (p ∉ fs →
      pathlib_mkdir fs p true true =
        Except.ok (fs ++ p.inits.filter (fun q => !q.isEmpty)) ∧
      ∀ q, q ≠ [] → q <+: p →
        q ∈ fs ++ p.inits.filter (fun q => !q.isEmpty)) ∧
    (p ∈ fs → pathlib_mkdir fs p true true = Except.ok fs) := by
  constructor
  · intro h
    refine ⟨by simp [pathlib_mkdir, h], ?_⟩
    intro q hq hqp
    refine List.mem_append.mpr (Or.inr ?_)
    refine List.mem_filter.mpr ⟨(List.mem_inits q p).mpr hqp, ?_⟩
    simp [hq]
  · intro h
    simp [pathlib_mkdir, h]

/-- Closed instance of claim C8: creating a two-component path in an empty
filesystem also creates its parent, and creating an existing path is a
no-op success. -/
theorem workspace_mkdir_parents_exist_ok_witness :
    pathlib_mkdir [["a"]] ["a"] true true = Except.ok [["a"]] ∧
    (["a"] : Path) ∈ ([] : List Path) ++ (["a", "b"] : Path).inits.filter (fun q => !q.isEmpty) :=
  ⟨(workspace_mkdir_parents_exist_ok [["a"]] ["a"]).2 (by simp),
   ((workspace_mkdir_parents_exist_ok [] ["a", "b"]).1 (by simp)).2 ["a"]
     (by simp) (by decide)⟩

/-- Claim C9: when every command succeeds, a run of main performs its
steps in the fixed order: the workspace mkdir, then the packaging sync at
the fixed branch main regardless of the branch argument, then the fork
sync at the user branch, then the build, then the optional start. -/
theorem main_step_order (w : World) (fs : List Path) (repo_url : String)
    (branch : String) (workspace : Path) (packaging_url : String)
    (compose_services : List String) (no_start : Bool)
    (hw : ∀ c, w c = CmdResult.exited 0) :
    pathlib_mkdir fs workspace true true = Except.ok (fsAfter fs workspace) ∧
    main w fs repo_url branch workspace packaging_url compose_services no_start =
      (syncTrace (fsAfter fs workspace) packaging_url (workspace ++ ["netdisco-docker"]) "main" ++
       (syncTrace (fsAfter fs workspace) repo_url (workspace ++ ["netdisco"]) branch ++
        buildTrace (workspace ++ ["netdisco-docker"]) compose_services branch repo_url
          (!no_start)), [], 0) := by
  refine ⟨mkdir_tt fs workspace, ?_⟩
  rw [main_eq]
  rw [execCmds_all_ok w _ (fun c _ => (runOne_ok_iff w c).mpr (hw c))]
  simp [stderrOf, codeOf, mainTrace]

/-- Closed instance of claim C9, in a world where every command
succeeds. -/
theorem main_step_order_witness :
    main (fun _ => CmdResult.exited 0) [] "u" "b" ["w"] "p" ["s"] false =
      (syncTrace (fsAfter [] ["w"]) "p" (["w"] ++ ["netdisco-docker"]) "main" ++
       (syncTrace (fsAfter [] ["w"]) "u" (["w"] ++ ["netdisco"]) "b" ++
        buildTrace (["w"] ++ ["netdisco-docker"]) ["s"] "b" "u" (!false)), [], 0) :=
  (main_step_order (fun _ => CmdResult.exited 0) [] "u" "b" ["w"] "p" ["s"] false
    (fun _ => rfl)).2

/-- Claim C4: with the no-start flag the compose up command is never
invoked; without it, whenever the compose build command is invoked and
succeeds, the compose up command is invoked exactly once and only after
the build. -/
theorem up_step_guarded_by_no_start (w : World) (fs : List Path) (repo_url : String)
    (branch : String) (workspace : Path) (packaging_url : String)
    (compose_services : List String) (no_start : Bool) :
    (no_start = true →
      (⟨["docker", "compose", "up", "-d"], some (workspace ++ ["netdisco-docker"])⟩ : Cmd) ∉
        (main w fs repo_url branch workspace packaging_url compose_services no_start).fst) ∧
    (no_start = false →
      w ⟨["docker", "compose", "build", "--build-arg", "COMMITTISH=" ++ branch,
          "--build-arg", "GIT_URL=" ++ repo_url] ++ compose_services,
         some (workspace ++ ["netdisco-docker"])⟩ = CmdResult.exited 0 →
      (⟨["docker", "compose", "build", "--build-arg", "COMMITTISH=" ++ branch,
         "--build-arg", "GIT_URL=" ++ repo_url] ++ compose_services,
        some (workspace ++ ["netdisco-docker"])⟩ : Cmd) ∈
        (main w fs repo_url branch workspace packaging_url compose_services no_start).fst →
      ((main w fs repo_url branch workspace packaging_url compose_services no_start).fst.count
          ⟨["docker", "compose", "up", "-d"], some (workspace ++ ["netdisco-docker"])⟩ = 1 ∧
       (main w fs repo_url branch workspace packaging_url compose_services no_start).fst.getLast? =
          some ⟨["docker", "compose", "up", "-d"], some (workspace ++ ["netdisco-docker"])⟩ ∧
       (⟨["docker", "compose", "build", "--build-arg", "COMMITTISH=" ++ branch,
          "--build-arg", "GIT_URL=" ++ repo_url] ++ compose_services,
         some (workspace ++ ["netdisco-docker"])⟩ : Cmd) ∈
        (main w fs repo_url branch workspace packaging_url compose_services no_start).fst.dropLast)) := by
  constructor
  · intro hns
    subst hns
    rw [main_eq]
    dsimp only
    intro hmem
    have hmm := (execCmds_fst_initial w _).subset hmem
    unfold mainTrace at hmm
    rcases List.mem_append.mp hmm with h1 | h23
    · exact absurd h1 (docker_notMem_syncTrace _ _ _ _ _ rfl)
    rcases List.mem_append.mp h23 with h2 | h3
    · exact absurd h2 (docker_notMem_syncTrace _ _ _ _ _ rfl)
    · unfold buildTrace at h3
      simp at h3
  · intro hns hwb hmem
    subst hns
    rw [main_eq] at hmem ⊢
    dsimp only at hmem ⊢
    have htr : mainTrace fs repo_url branch workspace packaging_url compose_services false =
        (syncTrace (fsAfter fs workspace) packaging_url (workspace ++ ["netdisco-docker"]) "main" ++
         syncTrace (fsAfter fs workspace) repo_url (workspace ++ ["netdisco"]) branch) ++
        [⟨["docker", "compose", "build", "--build-arg", "COMMITTISH=" ++ branch,
           "--build-arg", "GIT_URL=" ++ repo_url] ++ compose_services,
          some (workspace ++ ["netdisco-docker"])⟩,
         ⟨["docker", "compose", "up", "-d"], some (workspace ++ ["netdisco-docker"])⟩] := by
      unfold mainTrace buildTrace
      simp [List.append_assoc]
    rw [htr] at hmem ⊢
    refine exec_build_up w _ _ _ ?_ ?_ ?_ ((runOne_ok_iff w _).mpr hwb) hmem
    · intro h
      rcases List.mem_append.mp h with h1 | h2
      · exact absurd h1 (docker_notMem_syncTrace _ _ _ _ _ rfl)
      · exact absurd h2 (docker_notMem_syncTrace _ _ _ _ _ rfl)
    · intro h
      rcases List.mem_append.mp h with h1 | h2
      · exact absurd h1 (docker_notMem_syncTrace _ _ _ _ _ rfl)
      · exact absurd h2 (docker_notMem_syncTrace _ _ _ _ _ rfl)
    · intro h
      have := congrArg Cmd.args h
      simp at this

/-- Closed instance of claim C4: with the no-start flag the up command is
absent from the trace; without it and with every command succeeding, the
up command appears exactly once. -/
theorem up_step_guarded_by_no_start_witness :
    (⟨["docker", "compose", "up", "-d"], some (["w"] ++ ["netdisco-docker"])⟩ : Cmd) ∉
      (main (fun _ => CmdResult.exited 0) [] "u" "b" ["w"] "p" ["s"] true).fst ∧
    (main (fun _ => CmdResult.exited 0) [] "u" "b" ["w"] "p" ["s"] false).fst.count
      ⟨["docker", "compose", "up", "-d"], some (["w"] ++ ["netdisco-docker"])⟩ = 1 :=
  ⟨(up_step_guarded_by_no_start (fun _ => CmdResult.exited 0) [] "u" "b" ["w"] "p"
      ["s"] true).1 rfl,
   ((up_step_guarded_by_no_start (fun _ => CmdResult.exited 0) [] "u" "b" ["w"] "p"
      ["s"] false).2 rfl rfl (by decide)).1⟩

end DockerQuickstart
